import Mathlib

/-!
Verification of the portfolio SEO enhancement script (src/seo-enhancer.js).

The script is a DOM-driven metadata injector: each function reads parts of
the live page and mutates it in place.  We shallowly embed each function as
a pure Lean function over a small state type carrying exactly the DOM data
that the function reads and writes.  A JavaScript function that can throw a
TypeError (for example calling a method on a null query result) is embedded
as an `Option`-returning function, `none` meaning the call throws and the
rest of the enhancement pass is aborted.
-/

namespace Seo

/-- An element's attribute map, in insertion order, as the DOM keeps it. -/
abbrev Attrs := List (String × String)

/-- Embedding of `el.setAttribute(k, v)`: replace the value in place when the
attribute is present, otherwise append it. -/
def setAttr (as : Attrs) (k v : String) : Attrs :=
  if as.any (fun p => p.fst = k) then
    as.map (fun p => if p.fst = k then (k, v) else p)
  else
    as ++ [(k, v)]

/-- Embedding of `el.getAttribute(k)` (`none` for an absent attribute). -/
def getAttr (as : Attrs) (k : String) : Option String :=
  (as.find? (fun p => p.fst = k)).map (fun p => p.snd)

/-! ## Structural annotation (`enhanceSemanticStructure`, lines 25-37) -/

/-- A `.portfolio-item` element: its attributes, and the text content of its
first `h3` descendant — `none` when `item.querySelector('h3')` is null. -/
structure PortfolioItem where
  attrs : Attrs
  heading : Option String
deriving DecidableEq

/-- The DOM surface read by `enhanceSemanticStructure`: the attribute maps of
`document.querySelector('main')` and `document.querySelector('nav')` (`none`
when the query returns null) and the portfolio items in document order. -/
structure SemanticDoc where
  mainAttrs : Option Attrs
  navAttrs : Option Attrs
  items : List PortfolioItem
deriving DecidableEq

/-- One iteration of the `forEach` body (lines 32-36).  The source reads
`item.querySelector('h3').textContent`, so an item without an `h3` child makes
the callback throw: embedded as `none`. -/
def annotateItem (it : PortfolioItem) : Option PortfolioItem :=
  match it.heading with
  | none => none
  | some h => some { it with attrs :=
      (setAttr
        (setAttr (setAttr it.attrs "itemscope" "") "itemtype" "https://schema.org/CreativeWork")
        "aria-label" ("Portfolio project: " ++ h)) }

/-- The `forEach` loop over portfolio items; a throw in any iteration aborts
the whole loop. -/
def annotateItems : List PortfolioItem → Option (List PortfolioItem)
  | [] => some []
  | it :: rest =>
    match annotateItem it with
    | none => none
    | some it2 =>
      match annotateItems rest with
      | none => none
      | some r => some (it2 :: r)

/-- Embedding of `enhanceSemanticStructure` (lines 25-37).  The source calls
`document.querySelector('main').setAttribute(...)` and likewise for `nav`
without any null check, so a missing container throws (`none`). -/
def enhanceSemanticStructure (d : SemanticDoc) : Option SemanticDoc :=
  match d.mainAttrs with
  | none => none
  | some m =>
    match d.navAttrs with
    | none => none
    | some n =>
      let m2 := setAttr m "role" "main"
      let n2 := setAttr (setAttr n "itemscope" "") "itemtype"
        "https://schema.org/SiteNavigationElement"
      match annotateItems d.items with
      | none => none
      | some items2 => some ⟨some m2, some n2, items2⟩

/-! ## Hidden-content injection (`addBotOnlyContent`, lines 39-59) -/

/-- A child of `document.body`: either a `div` created by this script
(class name, inline style text, inner HTML) or any pre-existing element. -/
inductive BodyElem where
  | div (className cssText innerHTML : String)
  | elem (tag : String) (inner : String)
deriving DecidableEq

/-- The `style.cssText` assigned to the hidden bot-content block (line 43). -/
def botCss : String :=
  "position:absolute;left:-9999px;top:-9999px;height:1px;width:1px;overflow:hidden;"

/-- The template literal assigned to `botContent.innerHTML` (lines 45-56),
with `document.title` interpolated. -/
def botContentHTML (title : String) : String :=
  "\n        <h2>Mansoor Ahmad SEO Services</h2>\n        <p>Professional SEO services including:</p>\n        <ul>\n            <li>Keyword research for \"" ++ title ++ "\"</li>\n            <li>On-page optimization techniques</li>\n            <li>Technical SEO audits</li>\n            <li>Off-page link building strategies</li>\n            <li>Local SEO for Pakistani businesses</li>\n        </ul>\n        <p>Contact Mansoor Ahmad for top-ranking SEO solutions in Pakistan.</p>\n    "

/-- The DOM surface read and written by `addBotOnlyContent`: the document
title and the children of `document.body`. -/
structure BotPage where
  title : String
  body : List BodyElem
deriving DecidableEq

/-- Embedding of `addBotOnlyContent` (lines 39-59): build the hidden div and
append it to the body. -/
def addBotOnlyContent (p : BotPage) : BotPage :=
  { p with body := p.body ++ [.div "bot-only-content" botCss (botContentHTML p.title)] }

/-! ## Literal string matching

`matchHere pat s` decides whether the literal pattern `pat` matches the list
`s` at its first position.  It backs both the embedded URL parser instance
and the embedded regular-expression scan of the keyword self-check. -/

/-- Does `pat` match at the very start of `s`? -/
def matchHere : List Char → List Char → Bool
  | [], _ => true
  | _ :: _, [] => false
  | a :: asl, b :: bs => a == b && matchHere asl bs

/-! ## Dynamic sitemap (`generateDynamicSitemap`, lines 81-97) -/

/-- The part of a parsed URL that the script reads: `new URL(link).pathname`
(line 92). -/
structure URLData where
  pathname : String
deriving DecidableEq

/-- Embedding of the JavaScript `Set` built on line 84 (`[...new Set(links)]`):
insertion-order deduplication, keeping the first occurrence of each element.
`seen` is the set contents accumulated so far. -/
def jsSetDedupAux (seen : List String) : List String → List String
  | [] => []
  | x :: xs => if x ∈ seen then jsSetDedupAux seen xs else x :: jsSetDedupAux (x :: seen) xs

/-- `[...new Set(links)]` (line 84). -/
def jsSetDedup (l : List String) : List String := jsSetDedupAux [] l

/-- The `style.cssText` assigned to the hidden sitemap block (line 88). -/
def sitemapCss : String :=
  "position:absolute;left:-9999px;width:1px;height:1px;overflow:hidden;"

/-- One `<li>` of the sitemap list (line 92): the deduplicated link as the
href, its parsed pathname as the display text. -/
def sitemapEntryHTML (e : String × String) : String :=
  "<li><a href=\"" ++ e.1 ++ "\">" ++ e.2 ++ "</a></li>"

/-- The template literal assigned to `sitemap.innerHTML` (lines 89-94), after
the `<li>` fragments have been joined with `''`. -/
def sitemapHTML (entries : List (String × String)) : String :=
  "\n        <h2>Website Structure</h2>\n        <ul>\n            " ++
    String.join (entries.map sitemapEntryHTML) ++ "\n        </ul>\n    "

/-- The `uniqueLinks.map(link => ...)` loop of line 92, carried out over the
whole list: each link is paired with `new URL(link).pathname`.  The `URL`
constructor is a platform primitive that throws on an unparseable string; it
is passed in as `parse`, with `none` meaning a throw, which aborts the whole
pass. -/
def sitemapEntries (parse : String → Option URLData) :
    List String → Option (List (String × String))
  | [] => some []
  | link :: rest =>
    match parse link with
    | none => none
    | some u =>
      match sitemapEntries parse rest with
      | none => none
      | some es => some ((link, u.pathname) :: es)

/-- The DOM surface of `generateDynamicSitemap`: the `href` property of each
`a[href]` anchor in document order, and the children of `document.body`. -/
structure SitemapPage where
  anchors : List String
  body : List BodyElem
deriving DecidableEq

/-- Embedding of `generateDynamicSitemap` (lines 81-97), parameterized by the
platform URL parser: deduplicate the anchor hrefs preserving first-occurrence
order, render each with its pathname, and append the hidden sitemap div to the
body.  An unparseable href makes `new URL` throw inside the template literal,
so the whole pass aborts (`none`) and nothing is appended. -/
def generateDynamicSitemap (parse : String → Option URLData) (p : SitemapPage) :
    Option SitemapPage :=
  match sitemapEntries parse (jsSetDedup p.anchors) with
  | none => none
  | some entries =>
    some { p with body := p.body ++ [.div "hidden-sitemap" sitemapCss (sitemapHTML entries)] }

/-- A concrete instance of the platform URL parser, used by witnesses and
counterexamples; it models the WHATWG parser's behavior on the URL strings
appearing there: an absolute http(s) URL with a nonempty, bracket-free host
parses, with the remainder (or "/") as its pathname, while a string such as
"http://[invalid" — an unclosed IPv6 bracket, which is exactly the raw value
the `href` property yields for such an unparseable anchor — throws. -/
def demoURLParse (s : String) : Option URLData :=
  let cs := s.data
  let afterScheme : Option (List Char) :=
    if matchHere "https://".data cs then some (cs.drop 8)
    else if matchHere "http://".data cs then some (cs.drop 7)
    else none
  match afterScheme with
  | none => none
  | some rest =>
    let host := rest.takeWhile (fun c => c ≠ '/')
    if host.isEmpty || host.contains '[' || host.contains ']' then none
    else
      let path := rest.drop host.length
      some ⟨String.mk (if path.isEmpty then ['/'] else path)⟩

/-! ## Media loading (`optimizeMediaLoading`, lines 61-79) -/

/-- An `img` element as this pass sees it: its `src` attribute (`none` when
absent), its `alt` text (`""` when unset, as the property reflects), its class
list, its `data-src` attribute and its `loading` attribute. -/
structure Img where
  srcAttr : Option String
  alt : String
  classes : List String
  dataSrc : Option String
  loadingAttr : Option String
deriving DecidableEq

/-- A node in a sibling list: an image, a `noscript` fallback wrapping a plain
image, or any other element. -/
inductive MNode where
  | img (i : Img)
  | noscript (fallback : Img)
  | elem (tag : String)
deriving DecidableEq

/-- The value the `loading` IDL property reflects on a browser implementing
it: the content attribute is enumerated with keywords "lazy" and "eager"
(matched ASCII case-insensitively) and both missing-value and invalid-value
defaults are the Eager state — so the property is always "lazy" or "eager",
never empty. -/
def reflectLoading (attr : Option String) : String :=
  match attr with
  | some s => if s.toLower = "lazy" then "lazy" else "eager"
  | none => "eager"

/-- What the expression `img.loading` (line 64) evaluates to: the reflected
keyword on a platform implementing the lazy-loading IDL attribute, and
`undefined` (here `none`) — for every image, marked or not — on a platform
that does not. -/
def loadingProp (supportsLoading : Bool) (i : Img) : Option String :=
  if supportsLoading then some (reflectLoading i.loadingAttr) else none

/-- Embedding of the guard `!img.loading` (line 64): JavaScript negation is
true on `undefined` and on the empty string, false on every nonempty string.
Since reflection never yields the empty string, this guard depends only on
the platform, never on the image's own attribute. -/
def loadingFalsy (supportsLoading : Bool) (i : Img) : Bool :=
  match loadingProp supportsLoading i with
  | none => true
  | some s => s == ""

/-- Lines 65-68: record the original source in `data-src`, remove the `src`
attribute, and add the `lazyload` class (`classList.add` is a no-op when the
class is already present). -/
def processImg (i : Img) : Img :=
  { i with
    dataSrc := some (i.srcAttr.getD ""),
    srcAttr := none,
    classes := if "lazyload" ∈ i.classes then i.classes else i.classes ++ ["lazyload"] }

/-- Lines 71-75: the plain fallback image placed inside the `noscript`
element, with the original source and a best-effort alt text
(`img.alt || 'Portfolio image'`). -/
def fallbackImg (i : Img) : Img :=
  { srcAttr := some (i.srcAttr.getD "")
    alt := if i.alt == "" then "Portfolio image" else i.alt
    classes := []
    dataSrc := none
    loadingAttr := none }

/-- Embedding of `optimizeMediaLoading` (lines 61-79) on a sibling list,
parameterized by whether the platform implements the `loading` IDL attribute.
`querySelectorAll('img')` takes a static snapshot, and for each image whose
`loading` property is falsy the pass inserts the `noscript` fallback
immediately before it (`insertBefore`, line 76) and rewrites the image in
place. -/
def optimizeMediaLoading (supportsLoading : Bool) (ns : List MNode) : List MNode :=
  ns.flatMap (fun n =>
    match n with
    | .img i =>
      if loadingFalsy supportsLoading i then
        [.noscript (fallbackImg i), .img (processImg i)]
      else [n]
    | _ => [n])

/-! ## Script-level control flow (lines 6-21 and 157-248) -/

/-- The enhancement steps of the script, one per function or top-level call:
the five functions invoked by the `DOMContentLoaded` handler, the content
prioritizer construction, the keyword density self-check, and the three
structured-data emissions. -/
inductive Step where
  | enhanceStructure
  | addBotContent
  | optimizeMedia
  | genSitemap
  | sendSignals
  | prioritizeContent
  | keywordCheck
  | personLd
  | breadcrumbLd
  | faqLd
deriving DecidableEq

/-- The calls made, in order, by the `DOMContentLoaded` handler (lines 6-21). -/
def readyHandlerSteps : List Step :=
  [.enhanceStructure, .addBotContent, .optimizeMedia, .genSitemap, .sendSignals]

/-- The calls made, in order, by top-level statements as the script body is
evaluated (lines 158, 159-160, 190, 215, 248): `new ContentPrioritizer()`
(whose constructor calls `addPriorityTags`), the keyword density self-check
with its log, and the three structured-data emissions. -/
def topLevelSteps : List Step :=
  [.prioritizeContent, .keywordCheck, .personLd, .breadcrumbLd, .faqLd]

/-- The execution trace of one page load: the script body is evaluated first
(line 6 registers the ready listener, then the top-level statements run), and
the handler's steps run later, when the `DOMContentLoaded` event fires. -/
def pageLoadTrace : List Step := topLevelSteps ++ readyHandlerSteps

/-! ## Indexing signals (`sendIndexingSignals`, lines 99-108) -/

/-- An uppercase hexadecimal digit, as `encodeURIComponent` produces. -/
def hexDigit (n : Nat) : Char :=
  if n < 10 then Char.ofNat (48 + n) else Char.ofNat (55 + n)

/-- The UTF-8 bytes of a character; percent-encoding escapes each of them. -/
def utf8Bytes (c : Char) : List Nat :=
  let n := c.toNat
  if n < 128 then [n]
  else if n < 2048 then [192 + n / 64, 128 + n % 64]
  else if n < 65536 then [224 + n / 4096, 128 + n / 64 % 64, 128 + n % 64]
  else [240 + n / 262144, 128 + n / 4096 % 64, 128 + n / 64 % 64, 128 + n % 64]

/-- The characters `encodeURIComponent` leaves unescaped: ASCII letters and
digits and the marks `- _ . ! ~ *  ( )` and the apostrophe. -/
def uriUnescaped (c : Char) : Bool :=
  c.isAlphanum || c ∈ ['-', '_', '.', '!', '~', '*', Char.ofNat 39, '(', ')']

/-- Embedding of the platform `encodeURIComponent` (line 102). -/
def encodeURIComponent (s : String) : String :=
  String.mk ((s.data.map (fun c =>
    if uriUnescaped c then [c]
    else (utf8Bytes c).map (fun b => ['%', hexDigit (b / 16), hexDigit (b % 16)]) |>.flatten)).flatten)

/-- The ping URL built on line 102 from the page origin. -/
def sitemapPingUrl (origin : String) : String :=
  "https://www.google.com/ping?sitemap=" ++ encodeURIComponent (origin ++ "/sitemap.xml")

/-- The runtime surface of `sendIndexingSignals`: whether the non-blocking
`navigator.sendBeacon` capability exists, the page origin, the beacons sent so
far, and the attributes of `document.documentElement`. -/
structure SignalState where
  hasSendBeacon : Bool
  origin : String
  beacons : List String
  rootAttrs : Attrs
deriving DecidableEq

/-- Embedding of `sendIndexingSignals` (lines 99-108): send the ping only when
the capability is present (lines 101-104), then always mark the document root
with the completion flag (line 107). -/
def sendIndexingSignals (s : SignalState) : SignalState :=
  let s1 := if s.hasSendBeacon
    then { s with beacons := s.beacons ++ [sitemapPingUrl s.origin] }
    else s
  { s1 with rootAttrs := setAttr s1.rootAttrs "data-seo-enhanced" "true" }

/-! ## Keyword density (`analyzeKeywordDensity`, lines 136-155) -/

/-- Embedding of the global regex scan
`content.match(new RegExp(keyword, 'gi'))` for a literal keyword: scan left to
right, and after a match resume just past its end, as the regex engine
advances `lastIndex` by the match length.  `fuel` bounds the recursion;
`scanCount` supplies `t.length`, which the scan never exhausts. -/
def scanCountFuel : Nat → List Char → List Char → Nat
  | 0, _, _ => 0
  | _ + 1, _, [] => 0
  | fuel + 1, kw, c :: t =>
    if matchHere kw (c :: t) then 1 + scanCountFuel fuel kw (t.drop (kw.length - 1))
    else scanCountFuel fuel kw t

/-- The number of matches the global regex scan reports for a literal
keyword (`matches.length` on line 151, `0` when `match` returns null). -/
def scanCount (kw t : List Char) : Nat := scanCountFuel t.length kw t

/-- The fixed keyword list of lines 138-145. -/
def keywords : List (List Char) :=
  ["mansoor ahmad".data, "seo specialist".data, "portfolio".data,
   "keyword research".data, "technical seo".data, "pakistan seo expert".data]

/-- Embedding of `analyzeKeywordDensity` (lines 136-155): lower-case the body
text, then map each keyword to its global match count, producing the
`densityReport` object in insertion order.  The keywords are lowercase
literals, so with the content already lowered the 'i' flag changes nothing
and the scan is a literal-pattern scan. -/
def analyzeKeywordDensity (text : List Char) : List (List Char × Nat) :=
  let content := text.map Char.toLower
  keywords.map (fun kw => (kw, scanCount kw content))

/-- Specification-side count (deliberately not taken from the source): the
number of positions at which `kw` occurs as a contiguous substring — the
plain meaning of "the text contains the keyword exactly k times".  The claim
compares the code's regex scan against this count. -/
def positionCount (kw : List Char) : List Char → Nat
  | [] => if kw = [] then 1 else 0
  | c :: t => (if matchHere kw (c :: t) then 1 else 0) + positionCount kw t

/-- A keyword has no self-overlap when no proper tail of it is also a head of
it.  Occurrences of such a keyword can never overlap, so the non-overlapping
regex scan counts every occurrence; all six keywords satisfy this. -/
abbrev noSelfOverlap (kw : List Char) : Prop :=
  ∀ i < kw.length, 0 < i → matchHere (kw.drop i) kw = false

/-! ## Structured data (lines 162-248) -/

/-- The JSON values the three schema builders construct (no null, boolean or
fractional values appear in them). -/
inductive Json where
  | str (s : String)
  | num (n : Nat)
  | arr (xs : List Json)
  | obj (fields : List (String × Json))

/-- Lowercase hexadecimal digit, as `JSON.stringify` uses in `\u` escapes. -/
def hexDigitLower (n : Nat) : Char :=
  if n < 10 then Char.ofNat (48 + n) else Char.ofNat (87 + n)

/-- The escape `JSON.stringify` applies to one character inside a string
literal: quote, backslash and the control shorthands, then `\u00XX` for the
remaining control characters, all other characters unchanged. -/
def jsonEscapeChar (c : Char) : List Char :=
  if c = Char.ofNat 34 then [Char.ofNat 92, Char.ofNat 34]
  else if c = Char.ofNat 92 then [Char.ofNat 92, Char.ofNat 92]
  else if c = Char.ofNat 10 then [Char.ofNat 92, 'n']
  else if c = Char.ofNat 13 then [Char.ofNat 92, 'r']
  else if c = Char.ofNat 9 then [Char.ofNat 92, 't']
  else if c = Char.ofNat 8 then [Char.ofNat 92, 'b']
  else if c = Char.ofNat 12 then [Char.ofNat 92, 'f']
  else if c.toNat < 32 then
    [Char.ofNat 92, 'u', '0', '0', hexDigitLower (c.toNat / 16), hexDigitLower (c.toNat % 16)]
  else [c]

/-- A JSON string literal as `JSON.stringify` renders it. -/
def jsonQuote (s : String) : String :=
  "\"" ++ String.mk (s.data.flatMap jsonEscapeChar) ++ "\""

mutual

/-- Embedding of `JSON.stringify` (no spacing argument, as on lines 185, 211
and 243): compact separators, keys in insertion order. -/
def Json.serialize : Json → String
  | .str s => jsonQuote s
  | .num n => toString n
  | .arr xs => "[" ++ serializeArr xs ++ "]"
  | .obj fs => "\x7b" ++ serializeObj fs ++ "\x7d"

/-- Comma-joined serialization of array elements. -/
def serializeArr : List Json → String
  | [] => ""
  | [x] => Json.serialize x
  | x :: y :: rest => Json.serialize x ++ "," ++ serializeArr (y :: rest)

/-- Comma-joined serialization of object fields. -/
def serializeObj : List (String × Json) → String
  | [] => ""
  | [(k, v)] => jsonQuote k ++ ":" ++ Json.serialize v
  | (k, v) :: p :: rest =>
    jsonQuote k ++ ":" ++ Json.serialize v ++ "," ++ serializeObj (p :: rest)

end

/-- The `schema` object literal of `generatePersonSchema` (lines 163-181). -/
def personSchema : Json := .obj
  [("@context", .str "https://schema.org"),
   ("@type", .str "Person"),
   ("name", .str "Mansoor Ahmad"),
   ("image", .str "https://yourportfolio.com/images/photo.jpg"),
   ("jobTitle", .str "SEO Specialist"),
   ("description", .str "I help businesses rank higher on Google with proven SEO strategies."),
   ("url", .str "https://yourportfolio.com"),
   ("sameAs", .arr [.str "https://linkedin.com/in/yourprofile",
                    .str "https://github.com/yourusername"]),
   ("address", .obj
     [("@type", .str "PostalAddress"),
      ("addressLocality", .str "Lahore"),
      ("addressRegion", .str "Punjab"),
      ("addressCountry", .str "Pakistan")])]

/-- The `breadcrumbs` array of lines 192-196. -/
def breadcrumbs : List (String × String) :=
  [("Home", "https://yourportfolio.com/"),
   ("Portfolio", "https://yourportfolio.com/portfolio"),
   ("SEO Services", "https://yourportfolio.com/seo")]

/-- The `schema` object literal of `generateBreadcrumbSchema` (lines 198-207),
with `itemListElement` built by the indexed `map` over the breadcrumbs. -/
def breadcrumbSchema : Json := .obj
  [("@context", .str "https://schema.org"),
   ("@type", .str "BreadcrumbList"),
   ("itemListElement", .arr (breadcrumbs.enum.map (fun p => .obj
     [("@type", .str "ListItem"),
      ("position", .num (p.fst + 1)),
      ("name", .str p.snd.fst),
      ("item", .str p.snd.snd)])))]

/-- The `faqs` array of lines 218-227 (question, answer). -/
def faqs : List (String × String) :=
  [("What SEO services do you offer?",
    "I provide keyword research, on-page SEO, technical SEO, and link building."),
   ("How long does SEO take to show results?",
    "Typically 3-6 months for noticeable improvements.")]

/-- The `schema` object literal of `generateFAQSchema` (lines 229-240). -/
def faqSchema : Json := .obj
  [("@context", .str "https://schema.org"),
   ("@type", .str "FAQPage"),
   ("mainEntity", .arr (faqs.map (fun f => .obj
     [("@type", .str "Question"),
      ("name", .str f.fst),
      ("acceptedAnswer", .obj
        [("@type", .str "Answer"),
         ("text", .str f.snd)])])))]

/-- A `<script>` element as the schema builders create it (lines 183-186):
its `type` attribute and its text content. -/
structure ScriptEl where
  scriptType : String
  text : String
deriving DecidableEq

/-- The children of `document.head`, where the schema scripts are appended. -/
structure HeadState where
  scripts : List ScriptEl
deriving DecidableEq

/-- Embedding of `generatePersonSchema` (lines 162-187). -/
def generatePersonSchema (h : HeadState) : HeadState :=
  { h with scripts := h.scripts ++ [⟨"application/ld+json", personSchema.serialize⟩] }

/-- Embedding of `generateBreadcrumbSchema` (lines 191-213). -/
def generateBreadcrumbSchema (h : HeadState) : HeadState :=
  { h with scripts := h.scripts ++ [⟨"application/ld+json", breadcrumbSchema.serialize⟩] }

/-- Embedding of `generateFAQSchema` (lines 217-246). -/
def generateFAQSchema (h : HeadState) : HeadState :=
  { h with scripts := h.scripts ++ [⟨"application/ld+json", faqSchema.serialize⟩] }

/-- The fixed top-level `@type` of a structured-data record. -/
def topLevelType : Json → Option String
  | .obj fs =>
    match fs.lookup "@type" with
    | some (.str s) => some s
    | _ => none
  | _ => none

end Seo

namespace Seo

/-- Claim C1 (counterexample): the structural annotation is claimed never to
throw, no-oping when `main` or `nav` is absent and treating a missing heading
as the empty string.  In fact it throws in all three situations: on a document
with no `main` element, and on a document whose single portfolio item has no
`h3` heading, the embedded pass aborts (`none`). -/
theorem enhanceSemanticStructure_throws_cex :
    enhanceSemanticStructure ⟨none, some [], []⟩ = none ∧
    enhanceSemanticStructure ⟨some [], none, []⟩ = none ∧
    enhanceSemanticStructure ⟨some [], some [], [⟨[], none⟩]⟩ = none :=
  ⟨rfl, rfl, rfl⟩

/-- Helper: the item loop succeeds exactly when every item has a heading. -/
theorem annotateItems_isSome_iff (l : List Seo.PortfolioItem) :
    (annotateItems l).isSome ↔ ∀ it ∈ l, it.heading.isSome := by
  induction l with
  | nil => simp [annotateItems]
  | cons it rest ih =>
    cases hh : it.heading with
    | none => simp [annotateItems, annotateItem, hh]
    | some h =>
      cases hr : annotateItems rest with
      | none =>
        rw [hr] at ih
        simp only [Option.isSome_none, false_iff] at ih
        simp [annotateItems, annotateItem, hh, hr, ih]
      | some r =>
        rw [hr] at ih
        simp only [Option.isSome_some, true_iff] at ih
        simp only [annotateItems, annotateItem, hh, hr]
        simp only [Option.isSome_some, true_iff, List.mem_cons, forall_eq_or_imp]
        exact ⟨by simp [hh], ih⟩

/-- Helper: when every item has a heading, the loop returns the annotated
items, with the aria-label built from each item's heading text. -/
theorem annotateItems_eq_map (l : List Seo.PortfolioItem)
    (h : ∀ it ∈ l, it.heading.isSome) :
    annotateItems l = some (l.map (fun it =>
      { it with attrs :=
          (setAttr
            (setAttr (setAttr it.attrs "itemscope" "") "itemtype"
              "https://schema.org/CreativeWork")
            "aria-label" ("Portfolio project: " ++ it.heading.getD "")) })) := by
  induction l with
  | nil => rfl
  | cons it rest ih =>
    have hh := h it (List.mem_cons_self it rest)
    cases hhd : it.heading with
    | none => rw [hhd] at hh; simp at hh
    | some s =>
      have hrest := ih (fun x hx => h x (List.mem_cons_of_mem _ hx))
      simp only [annotateItems, annotateItem, hhd, hrest, List.map_cons, hhd]
      rfl

/-- Claim C1 (amended): the structural annotation succeeds exactly when the
primary content container and the primary navigation container are both
present and every portfolio item has an `h3` heading; otherwise it throws.
On success it sets the accessibility role on `main`, the microdata attributes
on `nav`, and on each portfolio item the microdata attributes and an
aria-label of the form `"Portfolio project: " ++ heading text`. -/
theorem enhanceSemanticStructure_success_iff (d : SemanticDoc) :
    ((enhanceSemanticStructure d).isSome ↔
      d.mainAttrs.isSome ∧ d.navAttrs.isSome ∧ ∀ it ∈ d.items, it.heading.isSome) ∧
    (∀ m n, d.mainAttrs = some m → d.navAttrs = some n →
      (∀ it ∈ d.items, it.heading.isSome) →
      enhanceSemanticStructure d = some
        ⟨some (setAttr m "role" "main"),
         some (setAttr (setAttr n "itemscope" "") "itemtype"
           "https://schema.org/SiteNavigationElement"),
         d.items.map (fun it =>
           { it with attrs :=
               (setAttr
                 (setAttr (setAttr it.attrs "itemscope" "") "itemtype"
                   "https://schema.org/CreativeWork")
                 "aria-label" ("Portfolio project: " ++ it.heading.getD "")) })⟩) := by
  constructor
  · cases hm : d.mainAttrs with
    | none => simp [enhanceSemanticStructure, hm]
    | some m =>
      cases hn : d.navAttrs with
      | none => simp [enhanceSemanticStructure, hm, hn]
      | some n =>
        simp only [enhanceSemanticStructure, hm, hn, Option.isSome_some, true_and]
        cases hi : annotateItems d.items with
        | none =>
          have := annotateItems_isSome_iff d.items
          rw [hi] at this
          simpa using this
        | some items2 =>
          have := annotateItems_isSome_iff d.items
          rw [hi] at this
          simpa using this
  · intro m n hm hn hall
    have := annotateItems_eq_map d.items hall
    simp [enhanceSemanticStructure, hm, hn, this]

/-- Witness for `enhanceSemanticStructure_success_iff` at a concrete document
with one portfolio item whose heading reads "My Project". -/
theorem enhanceSemanticStructure_success_iff_wit :
    enhanceSemanticStructure ⟨some [], some [], [⟨[], some "My Project"⟩]⟩ = some
      ⟨some (setAttr [] "role" "main"),
       some (setAttr (setAttr [] "itemscope" "") "itemtype"
         "https://schema.org/SiteNavigationElement"),
       [⟨setAttr
           (setAttr (setAttr [] "itemscope" "") "itemtype"
             "https://schema.org/CreativeWork")
           "aria-label" ("Portfolio project: " ++ "My Project"),
         some "My Project"⟩]⟩ := by
  have h := (enhanceSemanticStructure_success_iff
      ⟨some [], some [], [⟨[], some "My Project"⟩]⟩).2
      [] [] rfl rfl (by intro it hit; simp at hit; subst hit; rfl)
  simpa using h

/-- Claim C7: the hidden-content injection is not idempotent: running it twice
on any page appends exactly two duplicate hidden promotional blocks to the
body, and the result differs from running it once. -/
theorem addBotOnlyContent_not_idempotent (p : BotPage) :
    (addBotOnlyContent (addBotOnlyContent p)).body =
      p.body ++ [BodyElem.div "bot-only-content" botCss (botContentHTML p.title),
                 BodyElem.div "bot-only-content" botCss (botContentHTML p.title)] ∧
    addBotOnlyContent (addBotOnlyContent p) ≠ addBotOnlyContent p := by
  constructor
  · simp [addBotOnlyContent]
  · intro h
    have hb : (addBotOnlyContent (addBotOnlyContent p)).body.length =
        (addBotOnlyContent p).body.length := by rw [h]
    simp [addBotOnlyContent] at hb

/-- Helper: in the branch of `setAttr` where the key is present, the rewritten
list maps the key to the new value. -/
theorem getAttr_mapSet (as : Attrs) (k v : String)
    (h : as.any (fun p => p.fst = k) = true) :
    getAttr (as.map (fun p => if p.fst = k then (k, v) else p)) k = some v := by
  induction as with
  | nil => simp at h
  | cons p rest ih =>
    by_cases hp : p.fst = k
    · simp [getAttr, hp]
    · have h' : rest.any (fun p => p.fst = k) = true := by simpa [hp] using h
      have := ih h'
      simpa [getAttr, hp] using this

/-- Helper: in the branch of `setAttr` where the key is absent, the appended
pair is found. -/
theorem getAttr_appendNew (as : Attrs) (k v : String)
    (h : as.any (fun p => p.fst = k) = false) :
    getAttr (as ++ [(k, v)]) k = some v := by
  induction as with
  | nil => simp [getAttr]
  | cons p rest ih =>
    have hp : ¬ p.fst = k := by
      intro hk
      simp [hk] at h
    have h' : rest.any (fun p => p.fst = k) = false := by simpa [hp] using h
    have := ih h'
    simpa [getAttr, hp] using this

/-- Helper: after `setAttr`, reading the same key yields the new value. -/
theorem getAttr_setAttr (as : Attrs) (k v : String) :
    getAttr (setAttr as k v) k = some v := by
  unfold setAttr
  cases h : as.any (fun p => p.fst = k) with
  | true => simpa [h] using getAttr_mapSet as k v h
  | false => simpa [h] using getAttr_appendNew as k v h

/-- Helper: membership in the accumulator-based `Set` deduplication. -/
theorem mem_jsSetDedupAux (x : String) :
    ∀ (l seen : List String), x ∈ jsSetDedupAux seen l ↔ x ∈ l ∧ x ∉ seen := by
  intro l
  induction l with
  | nil => intro seen; simp [jsSetDedupAux]
  | cons a xs ih =>
    intro seen
    by_cases ha : a ∈ seen
    · rw [jsSetDedupAux, if_pos ha, ih]
      constructor
      · rintro ⟨hx, hn⟩; exact ⟨List.mem_cons_of_mem _ hx, hn⟩
      · rintro ⟨hx, hn⟩
        rcases List.mem_cons.mp hx with rfl | hx'
        · exact absurd ha hn
        · exact ⟨hx', hn⟩
    · rw [jsSetDedupAux, if_neg ha]
      constructor
      · intro hx
        rcases List.mem_cons.mp hx with rfl | hx'
        · exact ⟨List.mem_cons_self _ _, ha⟩
        · have h2 := (ih (a :: seen)).mp hx'
          exact ⟨List.mem_cons_of_mem _ h2.1, fun hs => h2.2 (List.mem_cons_of_mem _ hs)⟩
      · rintro ⟨hx, hn⟩
        rcases List.mem_cons.mp hx with rfl | hx'
        · exact List.mem_cons_self _ _
        · by_cases hxa : x = a
          · subst hxa; exact List.mem_cons_self _ _
          · refine List.mem_cons_of_mem _ ((ih (a :: seen)).mpr ⟨hx', ?_⟩)
            intro hs
            rcases List.mem_cons.mp hs with h1 | h2
            · exact hxa h1
            · exact hn h2

/-- Helper: `[...new Set(links)]` has the same elements as `links`. -/
theorem mem_jsSetDedup (x : String) (l : List String) :
    x ∈ jsSetDedup l ↔ x ∈ l := by
  rw [jsSetDedup, mem_jsSetDedupAux]; simp

/-- Helper: the deduplicated list has no duplicates. -/
theorem jsSetDedupAux_nodup :
    ∀ (l seen : List String), (jsSetDedupAux seen l).Nodup := by
  intro l
  induction l with
  | nil => intro seen; simp [jsSetDedupAux]
  | cons a xs ih =>
    intro seen
    by_cases ha : a ∈ seen
    · rw [jsSetDedupAux, if_pos ha]; exact ih seen
    · rw [jsSetDedupAux, if_neg ha]
      refine List.nodup_cons.mpr ⟨?_, ih (a :: seen)⟩
      intro hmem
      exact ((mem_jsSetDedupAux a xs (a :: seen)).mp hmem).2 (List.mem_cons_self _ _)

/-- Helper: the deduplicated list is a sublist of the original, so its
elements appear in first-occurrence order. -/
theorem jsSetDedupAux_sublist :
    ∀ (l seen : List String), List.Sublist (jsSetDedupAux seen l) l := by
  intro l
  induction l with
  | nil => intro seen; simp [jsSetDedupAux]
  | cons a xs ih =>
    intro seen
    by_cases ha : a ∈ seen
    · rw [jsSetDedupAux, if_pos ha]
      exact (ih seen).trans (List.sublist_cons_self a xs)
    · rw [jsSetDedupAux, if_neg ha]
      exact List.Sublist.cons₂ a (ih (a :: seen))

/-- Helper: the entry loop throws exactly when some link fails to parse. -/
theorem sitemapEntries_eq_none_iff (parse : String → Option URLData) :
    ∀ l : List String, sitemapEntries parse l = none ↔ ∃ a ∈ l, parse a = none := by
  intro l
  induction l with
  | nil => simp [sitemapEntries]
  | cons link rest ih =>
    cases hp : parse link with
    | none =>
      simp only [sitemapEntries, hp, List.mem_cons, true_iff]
      exact ⟨link, Or.inl rfl, hp⟩
    | some u =>
      cases hr : sitemapEntries parse rest with
      | none =>
        have hex := ih.mp hr
        simp only [sitemapEntries, hp, hr, List.mem_cons, true_iff]
        obtain ⟨a, ha, hpa⟩ := hex
        exact ⟨a, Or.inr ha, hpa⟩
      | some es =>
        simp only [sitemapEntries, hp, hr]
        constructor
        · intro hcontra; exact absurd hcontra (by simp)
        · rintro ⟨a, ha, hpa⟩
          rcases List.mem_cons.mp ha with rfl | ha'
          · rw [hp] at hpa; exact absurd hpa (by simp)
          · have h0 := ih.mpr ⟨a, ha', hpa⟩
            rw [hr] at h0
            exact absurd h0 (by simp)

/-- Helper: when every link parses, the entry loop returns one entry per link,
pairing the link with its parsed pathname. -/
theorem sitemapEntries_eq_some (parse : String → Option URLData) :
    ∀ l, (∀ a ∈ l, (parse a).isSome) →
    ∃ es, sitemapEntries parse l = some es ∧ es.map Prod.fst = l ∧
      ∀ e ∈ es, ∃ u, parse e.1 = some u ∧ e.2 = u.pathname := by
  intro l
  induction l with
  | nil => intro _; exact ⟨[], rfl, rfl, by simp⟩
  | cons link rest ih =>
    intro h
    have hl := h link (List.mem_cons_self _ _)
    cases hp : parse link with
    | none => rw [hp] at hl; simp at hl
    | some u =>
      obtain ⟨es, h1, h2, h3⟩ := ih (fun a ha => h a (List.mem_cons_of_mem _ ha))
      refine ⟨(link, u.pathname) :: es, ?_, ?_, ?_⟩
      · simp [sitemapEntries, hp, h1]
      · simp [h2]
      · intro e he
        rcases List.mem_cons.mp he with rfl | he'
        · exact ⟨u, hp, rfl⟩
        · exact h3 e he'

/-- Claim C3 (counterexample): the claim says a malformed (unparseable) anchor
href never makes the sitemap pass throw, and that every remaining anchor is
still processed.  In fact `new URL(link)` is called with no try/catch inside
the template literal, so one malformed href — here the unparseable
"http://[invalid" — aborts the whole pass: nothing is appended to the body and
the perfectly parseable second anchor is not rendered either. -/
theorem generateDynamicSitemap_nothrow_cex :
    generateDynamicSitemap demoURLParse
      ⟨["http://[invalid", "https://mansoor.example/about"], []⟩ = none ∧
    (demoURLParse "https://mansoor.example/about").isSome := by
  exact ⟨rfl, rfl⟩

/-- Claim C3 (amended): a single unparseable href makes the sitemap pass throw
— no sitemap block is appended and no other anchor is rendered; the pass
completes exactly when every anchor href parses. -/
theorem generateDynamicSitemap_throws_iff (parse : String → Option URLData)
    (p : SitemapPage) :
    generateDynamicSitemap parse p = none ↔ ∃ a ∈ p.anchors, parse a = none := by
  cases he : sitemapEntries parse (jsSetDedup p.anchors) with
  | none =>
    have hex := (sitemapEntries_eq_none_iff parse (jsSetDedup p.anchors)).mp he
    simp only [generateDynamicSitemap, he, true_iff]
    obtain ⟨a, ha, hpa⟩ := hex
    exact ⟨a, (mem_jsSetDedup a p.anchors).mp ha, hpa⟩
  | some es =>
    simp only [generateDynamicSitemap, he]
    constructor
    · intro hcontra; exact absurd hcontra (by simp)
    · rintro ⟨a, ha, hpa⟩
      have : sitemapEntries parse (jsSetDedup p.anchors) = none :=
        (sitemapEntries_eq_none_iff parse _).mpr
          ⟨a, (mem_jsSetDedup a p.anchors).mpr ha, hpa⟩
      rw [this] at he
      exact absurd he (by simp)

/-- Claim C4 (counterexample): the claim says the sitemap block is always
appended, with exactly one entry per distinct href.  On a page whose two
anchors hold one parseable and one malformed href, the pass instead throws:
the result is an aborted pass, not a body carrying a two-entry block. -/
theorem generateDynamicSitemap_always_appends_cex :
    generateDynamicSitemap demoURLParse
      ⟨["https://mansoor.example/work", "http://[oops"], [.elem "header" ""]⟩ = none :=
  rfl

/-- Claim C4 (amended): provided every anchor href parses, the sitemap pass
appends exactly one hidden block whose list has exactly M entries for M
distinct hrefs — each distinct href exactly once, in first-occurrence order
(the entry keys form a duplicate-free sublist of the anchor list with the
same members), each rendered with its parsed pathname; for M = 0 the block is
still appended, with an empty list. -/
theorem generateDynamicSitemap_dedup_spec (parse : String → Option URLData)
    (p : SitemapPage) (h : ∀ a ∈ p.anchors, (parse a).isSome) :
    ∃ entries,
      generateDynamicSitemap parse p = some
        { p with body := p.body ++
            [.div "hidden-sitemap" sitemapCss (sitemapHTML entries)] } ∧
      entries.map Prod.fst = jsSetDedup p.anchors ∧
      (entries.map Prod.fst).Nodup ∧
      (∀ x, x ∈ entries.map Prod.fst ↔ x ∈ p.anchors) ∧
      List.Sublist (entries.map Prod.fst) p.anchors ∧
      entries.length = p.anchors.toFinset.card ∧
      (∀ e ∈ entries, ∃ u, parse e.1 = some u ∧ e.2 = u.pathname) := by
  have hall : ∀ a ∈ jsSetDedup p.anchors, (parse a).isSome := by
    intro a ha
    exact h a ((mem_jsSetDedup a p.anchors).mp ha)
  obtain ⟨es, h1, h2, h3⟩ := sitemapEntries_eq_some parse (jsSetDedup p.anchors) hall
  refine ⟨es, ?_, h2, ?_, ?_, ?_, ?_, h3⟩
  · simp [generateDynamicSitemap, h1]
  · rw [h2]; exact jsSetDedupAux_nodup p.anchors []
  · intro x; rw [h2]; exact mem_jsSetDedup x p.anchors
  · rw [h2]; exact jsSetDedupAux_sublist p.anchors []
  · have hlen : es.length = (jsSetDedup p.anchors).length := by
      rw [← h2, List.length_map]
    rw [hlen]
    have hnd : (jsSetDedup p.anchors).Nodup := jsSetDedupAux_nodup p.anchors []
    have hfs : (jsSetDedup p.anchors).toFinset = p.anchors.toFinset := by
      ext x
      simp [List.mem_toFinset, mem_jsSetDedup]
    rw [← List.toFinset_card_of_nodup hnd, hfs]

/-- Witness for `generateDynamicSitemap_dedup_spec` at the empty page: with
zero anchors the block is still created, carrying an empty list. -/
theorem generateDynamicSitemap_dedup_spec_wit :
    generateDynamicSitemap demoURLParse ⟨[], []⟩ =
      some ⟨[], [.div "hidden-sitemap" sitemapCss (sitemapHTML [])]⟩ := by
  obtain ⟨es, h1, h2, -⟩ :=
    generateDynamicSitemap_dedup_spec demoURLParse ⟨[], []⟩ (by simp)
  cases es with
  | nil => simpa using h1
  | cons e es' => simp [jsSetDedup, jsSetDedupAux] at h2

/-- Claim C2 (counterexample): the claim puts all seven numbered steps inside
the ready callback, with only the three structured-data emissions at top
level.  In the source the ready handler (lines 6-21) calls only the first
five; the priority tagging and the keyword density self-check are top-level
statements (lines 158-160). -/
theorem scriptOrder_claim_cex :
    ¬ (readyHandlerSteps =
        [Step.enhanceStructure, Step.addBotContent, Step.optimizeMedia, Step.genSitemap,
         Step.sendSignals, Step.prioritizeContent, Step.keywordCheck] ∧
       topLevelSteps = [Step.personLd, Step.breadcrumbLd, Step.faqLd]) := by
  decide

/-- Claim C2 (amended): on the ready signal the handler runs structural
annotating, hidden-content injection, media-loading rewrite, sitemap
generation and the indexing ping, synchronously in that order; priority
tagging, the keyword density self-check and the three structured-data
emissions run as top-level calls, in that order, during script evaluation —
hence before the ready callback, not after step 5. -/
theorem scriptOrder_spec :
    readyHandlerSteps =
      [Step.enhanceStructure, Step.addBotContent, Step.optimizeMedia,
       Step.genSitemap, Step.sendSignals] ∧
    topLevelSteps =
      [Step.prioritizeContent, Step.keywordCheck, Step.personLd,
       Step.breadcrumbLd, Step.faqLd] ∧
    pageLoadTrace = topLevelSteps ++ readyHandlerSteps ∧
    Step.prioritizeContent ∉ readyHandlerSteps ∧
    Step.keywordCheck ∉ readyHandlerSteps := by
  refine ⟨rfl, rfl, rfl, ?_, ?_⟩ <;> decide

/-- Claim C8: the indexing-signal dispatch sends the ping — carrying the
URL-encoded sitemap location derived from the page origin — exactly when the
runtime offers the non-blocking `sendBeacon` capability, is a total (never
failing) operation when the capability is absent, and in every case marks the
document root with the enhancement-completed flag attribute. -/
theorem sendIndexingSignals_spec (s : SignalState) :
    (sendIndexingSignals s).beacons =
      (if s.hasSendBeacon then s.beacons ++ [sitemapPingUrl s.origin] else s.beacons) ∧
    getAttr (sendIndexingSignals s).rootAttrs "data-seo-enhanced" = some "true" ∧
    ((sendIndexingSignals s).beacons = s.beacons ++ [sitemapPingUrl s.origin] ↔
      s.hasSendBeacon = true) := by
  refine ⟨?_, getAttr_setAttr _ _ _, ?_⟩
  · cases hb : s.hasSendBeacon <;> simp [sendIndexingSignals, hb]
  · cases hb : s.hasSendBeacon with
    | true => simp [sendIndexingSignals, hb]
    | false =>
      have hbeq : (sendIndexingSignals s).beacons = s.beacons := by
        simp [sendIndexingSignals, hb]
      rw [hbeq]
      constructor
      · intro hcontra
        have hlen := congrArg List.length hcontra
        simp at hlen
      · intro hcontra
        exact absurd hcontra (by simp)

/-- Helper: the guard `!img.loading` is decided by platform support alone.
On a browser implementing the property the reflected value is "lazy" or
"eager", both truthy; on one that does not, the property is undefined for
every image. -/
theorem loadingFalsy_eq (supp : Bool) (i : Img) : loadingFalsy supp i = !supp := by
  cases supp with
  | false => rfl
  | true =>
    have h0 : loadingFalsy true i = (reflectLoading i.loadingAttr == "") := rfl
    rw [h0]
    cases h : i.loadingAttr with
    | none => decide
    | some s =>
      show ((if s.toLower = "lazy" then "lazy" else "eager") == "") = !true
      split <;> decide

/-- Claim C5 (code bug): the claim — like the source's own comment "Convert
images to lazy load with noscript fallback" (line 62) — requires every image
lacking a lazy-loading marker to be rewritten and given a `noscript`
fallback.  But the guard `!img.loading` (line 64) reads the reflected IDL
property, which on a platform implementing it is never falsy (missing-value
default "eager") and on any other platform is undefined for every image:
it depends only on the platform, never on the image's own marker.  On a
supporting browser the claimed rewrite therefore happens to no image at all:
the unmarked image below keeps its `src` attribute and gains no class, no
`data-src` and no `noscript` sibling. -/
theorem optimizeMediaLoading_guard_dead :
    (∀ (supp : Bool) (i : Img), loadingFalsy supp i = !supp) ∧
    optimizeMediaLoading true [MNode.img ⟨some "images/work1.png", "", [], none, none⟩] =
      [MNode.img ⟨some "images/work1.png", "", [], none, none⟩] :=
  ⟨loadingFalsy_eq, rfl⟩

/-- Claim C10 (counterexample): the claim leaves every marker-carrying image
completely unchanged.  On a platform without the `loading` IDL property —
the only kind of platform on which this pass rewrites anything — the
property is undefined even for this image with `loading="lazy"`, so the
image itself is rewritten: its `src` attribute is stripped and a `noscript`
fallback is inserted immediately before it. -/
theorem optimizeMediaLoading_marked_rewritten_cex :
    optimizeMediaLoading false [MNode.img ⟨some "a.jpg", "first", [], none, some "lazy"⟩] =
      [MNode.noscript (fallbackImg ⟨some "a.jpg", "first", [], none, some "lazy"⟩),
       MNode.img (processImg ⟨some "a.jpg", "first", [], none, some "lazy"⟩)] ∧
    (processImg ⟨some "a.jpg", "first", [], none, some "lazy"⟩).srcAttr ≠
      (⟨some "a.jpg", "first", [], none, some "lazy"⟩ : Img).srcAttr := by
  exact ⟨rfl, by decide⟩

/-- Claim C10 (amended): on a platform implementing the native `loading`
property the pass is a no-op — every image, with or without a marker, and
all of its surroundings are left exactly as before; on a platform without
the property the guard fires for every image, so even a marker-carrying
image is itself rewritten, with its `noscript` fallback inserted immediately
before it. -/
theorem optimizeMediaLoading_platform_spec :
    (∀ ns : List MNode, optimizeMediaLoading true ns = ns) ∧
    (∀ (pre post : List MNode) (i : Img),
      optimizeMediaLoading false (pre ++ MNode.img i :: post) =
        optimizeMediaLoading false pre ++
          MNode.noscript (fallbackImg i) :: MNode.img (processImg i) ::
            optimizeMediaLoading false post) := by
  constructor
  · intro ns
    induction ns with
    | nil => rfl
    | cons n rest ih =>
      cases n with
      | img i =>
        have hf : loadingFalsy true i = false := by rw [loadingFalsy_eq]; rfl
        simp only [optimizeMediaLoading, List.flatMap_cons, hf] at ih ⊢
        simp [ih]
      | noscript f =>
        simp only [optimizeMediaLoading, List.flatMap_cons] at ih ⊢
        simp [ih]
      | elem t =>
        simp only [optimizeMediaLoading, List.flatMap_cons] at ih ⊢
        simp [ih]
  · intro pre post i
    have hf : loadingFalsy false i = true := by rw [loadingFalsy_eq]; rfl
    simp [optimizeMediaLoading, hf]

/-- Helper: a literal pattern matches at the head exactly when the list
extends it. -/
theorem matchHere_iff_append (pat : List Char) :
    ∀ s, matchHere pat s = true ↔ ∃ r, s = pat ++ r := by
  induction pat with
  | nil => intro s; simp [matchHere]
  | cons a asl ih =>
    intro s
    cases s with
    | nil => simp [matchHere]
    | cons b bs =>
      simp only [matchHere, Bool.and_eq_true, beq_iff_eq]
      rw [ih bs]
      constructor
      · rintro ⟨hab, r, hbs⟩
        subst hab
        exact ⟨r, by rw [hbs]; rfl⟩
      · rintro ⟨r, hr⟩
        injection hr with h1 h2
        exact ⟨h1.symm, r, h2⟩

/-- Helper: if `a ++ b = c ++ d` and `c` is no longer than `a`, then `c`
matches at the head of `a`. -/
theorem matchHere_of_append_eq :
    ∀ (c a b d : List Char), a ++ b = c ++ d → c.length ≤ a.length →
      matchHere c a = true := by
  intro c
  induction c with
  | nil => intro a b d _ _; rfl
  | cons x cs ih =>
    intro a b d heq hlen
    cases a with
    | nil => simp at hlen
    | cons y ys =>
      simp only [List.cons_append] at heq
      injection heq with h1 h2
      simp only [matchHere, Bool.and_eq_true, beq_iff_eq]
      exact ⟨h1.symm, ih ys b d h2 (by simpa using hlen)⟩

/-- Helper: if a self-overlap-free keyword matches at the head of `t`, it
cannot match again strictly inside the span of that match. -/
theorem no_match_inside (kw t : List Char) (hnso : noSelfOverlap kw)
    (hm : matchHere kw t = true) (i : Nat) (h0 : 0 < i) (hi : i < kw.length) :
    matchHere kw (t.drop i) = false := by
  obtain ⟨r, rfl⟩ := (matchHere_iff_append kw t).mp hm
  by_contra hma
  rw [Bool.not_eq_false] at hma
  obtain ⟨r2, hr2⟩ := (matchHere_iff_append kw _).mp hma
  have hd : (kw ++ r).drop i = kw.drop i ++ r := by
    rw [List.drop_append_eq_append_drop]
    have : i - kw.length = 0 := Nat.sub_eq_zero_of_le (le_of_lt hi)
    rw [this, List.drop_zero]
  rw [hd] at hr2
  have hmatch : matchHere (kw.drop i) kw = true := by
    refine matchHere_of_append_eq (kw.drop i) kw r2 r hr2.symm ?_
    simp [List.length_drop]
  have hfalse := hnso i hi h0
  rw [hfalse] at hmatch
  exact absurd hmatch (by simp)

/-- Helper: positions before `k` holding no match can be skipped without
changing the position count. -/
theorem positionCount_drop (kw : List Char) :
    ∀ (k : Nat) (s : List Char), (∀ m < k, matchHere kw (s.drop m) = false) →
      positionCount kw s = positionCount kw (s.drop k) := by
  intro k
  induction k with
  | zero => intro s _; rfl
  | succ k ih =>
    intro s h
    cases s with
    | nil => rfl
    | cons c s' =>
      have h0 : matchHere kw (c :: s') = false := by simpa using h 0 (Nat.succ_pos k)
      have hstep : positionCount kw (c :: s') = positionCount kw s' := by
        simp [positionCount, h0]
      rw [hstep]
      have hd : (c :: s').drop (k + 1) = s'.drop k := rfl
      rw [hd]
      apply ih
      intro m hm
      have := h (m + 1) (Nat.succ_lt_succ hm)
      simpa using this

/-- Helper: for a nonempty keyword with no self-overlap, the fueled regex
scan agrees with the substring position count. -/
theorem scanCountFuel_eq_positionCount (kw : List Char) (hne : kw ≠ [])
    (hnso : noSelfOverlap kw) :
    ∀ (fuel : Nat) (t : List Char), t.length ≤ fuel →
      scanCountFuel fuel kw t = positionCount kw t := by
  have hkw1 : 1 ≤ kw.length := by
    cases kw with
    | nil => exact absurd rfl hne
    | cons _ _ => simp
  intro fuel
  induction fuel with
  | zero =>
    intro t ht
    have ht0 : t = [] := List.eq_nil_of_length_eq_zero (Nat.le_zero.mp ht)
    subst ht0
    simp [scanCountFuel, positionCount, hne]
  | succ fuel ih =>
    intro t ht
    cases t with
    | nil => simp [scanCountFuel, positionCount, hne]
    | cons c t' =>
      by_cases hm : matchHere kw (c :: t') = true
      · rw [scanCountFuel, if_pos hm]
        have hlen : (t'.drop (kw.length - 1)).length ≤ fuel := by
          have h1 : t'.length ≤ fuel := by simpa using ht
          have h2 := List.length_drop (kw.length - 1) t'
          omega
        rw [ih _ hlen]
        have hpc : positionCount kw (c :: t') = 1 + positionCount kw t' := by
          simp [positionCount, hm]
        rw [hpc]
        congr 1
        symm
        apply positionCount_drop
        intro m hmm
        have hin := no_match_inside kw (c :: t') hnso hm (m + 1) (Nat.succ_pos m) (by omega)
        simpa using hin
      · rw [scanCountFuel, if_neg hm]
        have h1 : t'.length ≤ fuel := by simpa using ht
        rw [ih t' h1]
        rw [Bool.not_eq_true] at hm
        simp [positionCount, hm]

/-- Helper: looking a key up in a keyed map of a list yields its image. -/
theorem lookup_keyed_map (f : List Char → Nat) :
    ∀ (l : List (List Char)) (kw : List Char), kw ∈ l →
      (l.map (fun k => (k, f k))).lookup kw = some (f kw) := by
  intro l
  induction l with
  | nil => intro kw h; simp at h
  | cons a l' ih =>
    intro kw hkw
    by_cases hka : kw = a
    · subst hka
      simp [List.lookup]
    · have hkl : kw ∈ l' := by
        rcases List.mem_cons.mp hkw with h1 | h2
        · exact absurd h1 hka
        · exact h2
      have hne : (kw == a) = false := by simpa using hka
      simp only [List.map_cons, List.lookup, hne]
      exact ih kw hkl

/-- Claim C6: the keyword density self-check is case-insensitive and
additive: for every body text, the report carries an entry for each keyword
of the fixed list (in order), and maps each keyword to exactly the number of
positions at which it occurs in the lowered text — i.e. the number of its
occurrences in any letter case, computed from the text alone independently of
the other keywords. -/
theorem analyzeKeywordDensity_spec (text : List Char) :
    (analyzeKeywordDensity text).map Prod.fst = keywords ∧
    ∀ kw ∈ keywords,
      (analyzeKeywordDensity text).lookup kw =
        some (positionCount kw (text.map Char.toLower)) := by
  constructor
  · rfl
  · intro kw hkw
    have hprops : ∀ k ∈ keywords, k ≠ [] ∧ noSelfOverlap k := by decide
    rw [show analyzeKeywordDensity text =
        keywords.map (fun k => (k, scanCount k (text.map Char.toLower))) from rfl]
    rw [lookup_keyed_map (fun k => scanCount k (text.map Char.toLower)) keywords kw hkw]
    congr 1
    obtain ⟨hne, hnso⟩ := hprops kw hkw
    exact scanCountFuel_eq_positionCount kw hne hnso _ _ (le_refl _)

/-- Witness for `analyzeKeywordDensity_spec`: a text containing the fixed
keyword "seo specialist" exactly three times in three different letter cases
is reported with count 3. -/
theorem analyzeKeywordDensity_spec_wit :
    (analyzeKeywordDensity
      "An SEO Specialist at work: ask the seo specialist; truly a sEo SpEcIaLiSt.".data).lookup
      "seo specialist".data = some 3 := by
  have h := (analyzeKeywordDensity_spec
      "An SEO Specialist at work: ask the seo specialist; truly a sEo SpEcIaLiSt.".data).2
      "seo specialist".data (by decide)
  rw [h]
  decide

/-- Claim C9: the three structured-data emissions each append exactly one
script block to the document head, independently of each other and of prior
head contents; after all three run, the head carries, in order, the
serializations of the Person, BreadcrumbList and FAQPage records, each the
rendering of a well-formed record whose fixed top-level type field is
"Person", "BreadcrumbList" and "FAQPage" respectively. -/
theorem structuredData_spec (h : HeadState) :
    (generatePersonSchema h).scripts =
      h.scripts ++ [⟨"application/ld+json", personSchema.serialize⟩] ∧
    (generateBreadcrumbSchema h).scripts =
      h.scripts ++ [⟨"application/ld+json", breadcrumbSchema.serialize⟩] ∧
    (generateFAQSchema h).scripts =
      h.scripts ++ [⟨"application/ld+json", faqSchema.serialize⟩] ∧
    (generateFAQSchema (generateBreadcrumbSchema (generatePersonSchema h))).scripts =
      h.scripts ++
        [⟨"application/ld+json", personSchema.serialize⟩,
         ⟨"application/ld+json", breadcrumbSchema.serialize⟩,
         ⟨"application/ld+json", faqSchema.serialize⟩] ∧
    topLevelType personSchema = some "Person" ∧
    topLevelType breadcrumbSchema = some "BreadcrumbList" ∧
    topLevelType faqSchema = some "FAQPage" := by
  refine ⟨rfl, rfl, rfl, ?_, rfl, rfl, rfl⟩
  simp [generatePersonSchema, generateBreadcrumbSchema, generateFAQSchema]

end Seo
